import Mathlib

/-!
Verification of the Sui-Amor three-tier alignment matching engine.

This file gives a shallow embedding of the matching core found in
`app/services/alignment/` (`alignment.py`, `answer_normalizer.py`,
`data_store.py`) and proves, or refutes, the specification claims about it.

Modelling conventions:
 * Python dicts that preserve insertion order are modelled as association
   lists `List (String × _)`; `insertAssoc` models `d[k] = v` (overwrite
   keeps the original key position, a new key is appended) and
   `lookupAssoc` models `d[k]` / `k in d` for the resulting unique-key lists.
 * Python floats are modelled by exact rationals `ℚ`.  The only
   irrational quantity in the source is the Tier-2 Euclidean distance
   `math.sqrt(s)`; the embedding carries the squared distance `s : ℚ`
   instead, and every comparison the source makes on distances is
   translated through the strictly monotone square map
   (`sqrt s < 3  ↔  s < 9`, proved below as `sqrt_lt_three_iff_sq_lt_nine`).
 * Python sets built from the normalized answers are used by the source
   only through membership / intersection tests, so they are modelled by
   the underlying lists.
 * Text handling (`str.lower`, `str.strip`, `str.split`, `in`) is modelled
   character-exactly for the ASCII fragment via `List Char` operations.
-/

/-- Axis profile in the 5-dimensional trait space.  The source represents
this as a string-keyed dict with keys energy/pace/orientation/structure/
expression; `struct` stands for the reserved word `structure`. -/
structure Axes where
  energy : ℚ
  pace : ℚ
  orientation : ℚ
  struct : ℚ
  expression : ℚ
deriving DecidableEq

/-- The all-zero axis profile (the source's default dict of 0.0 values). -/
def Axes.zero : Axes := ⟨0, 0, 0, 0, 0⟩

/-- One selectable answer row as stored in `AlignmentDataStore.answers`
(data_store.py lines 86-100). -/
structure AnswerData where
  answer_id : String
  question_id : String
  question_text : String
  text : String
  category : String
  parent : Option String
  axes : Axes
deriving DecidableEq

/-- One alignment row as stored in `AlignmentDataStore.alignments`
(data_store.py lines 123-133). -/
structure AlignmentData where
  id : String
  type : String
  name : String
  title : String
  description : String
  components : List String
  component_order_matters : Bool
  axes : Axes
  categories : List String
deriving DecidableEq

/-- Python's ordered-dict assignment `d[k] = v`: overwriting keeps the key
at its original position, a fresh key is appended at the end. -/
def insertAssoc (m : List (String × String)) (k v : String) : List (String × String) :=
  if m.any (fun p => p.1 = k) then
    m.map (fun p => if p.1 = k then (k, v) else p)
  else
    m ++ [(k, v)]

/-- Dict lookup `d.get(k)` on an association list (first match; the lists
built by `insertAssoc` have unique keys). -/
def lookupAssoc {α : Type} (m : List (String × α)) (k : String) : Option α :=
  (m.find? (fun p => p.1 = k)).map (fun p => p.2)

/-- Python `str.lower()` (ASCII fragment). -/
def pyLower (s : String) : String := String.mk (s.data.map Char.toLower)

/-- Python `str.upper()` (ASCII fragment). -/
def pyUpper (s : String) : String := String.mk (s.data.map Char.toUpper)

/-- Python `str.strip()`: drop leading and trailing whitespace. -/
def pyStrip (s : String) : String :=
  String.mk (((s.data.dropWhile Char.isWhitespace).reverse.dropWhile Char.isWhitespace).reverse)

/-- Accumulator walk behind `pySplit`: collect maximal runs of
non-whitespace characters. -/
def wordsAux : List Char → List Char → List (List Char)
  | [], acc => if acc.isEmpty then [] else [acc.reverse]
  | c :: cs, acc =>
    if c.isWhitespace then
      (if acc.isEmpty then wordsAux cs [] else acc.reverse :: wordsAux cs [])
    else wordsAux cs (c :: acc)

/-- Python `str.split()` with no argument: split on whitespace runs,
discarding empty pieces. -/
def pySplit (s : String) : List String := (wordsAux s.data []).map String.mk

/-- Check that `xs` is an initial segment of `ys` (helper for the Python
substring test). -/
def isStartOf : List Char → List Char → Bool
  | [], _ => true
  | _ :: _, [] => false
  | a :: as, b :: bs => a = b && isStartOf as bs

/-- Check that `xs` occurs contiguously inside `ys` (helper for `in`). -/
def occursIn (xs : List Char) : List Char → Bool
  | [] => xs.isEmpty
  | y :: ys => isStartOf xs (y :: ys) || occursIn xs ys

/-- Python's substring test `a in b`. -/
def isSubstr (a b : String) : Bool := occursIn a.data b.data

/-- AnswerNormalizer._clean_text: lowercase, strip, drop characters that are
neither alphanumeric nor whitespace, then collapse internal whitespace to
single spaces (answer_normalizer.py lines 34-41). -/
def clean_text (s : String) : String :=
  let t := pyStrip (pyLower s)
  let t2 := String.mk (t.data.filter (fun c => c.isAlphanum || c.isWhitespace))
  String.intercalate " " (pySplit t2)

/-- The exact-match key of a catalog text: `text.lower().strip()`
(answer_normalizer.py line 26). -/
def exactKey (s : String) : String := pyStrip (pyLower s)

/-- AnswerNormalizer._build_lookup_map: fold the answer catalog into the
`text_to_id` dict, inserting the exact key and, when different, the cleaned
key for every answer (answer_normalizer.py lines 18-32). -/
def build_lookup_map (answers : List (String × AnswerData)) : List (String × String) :=
  answers.foldl
    (fun m p =>
      let m1 := insertAssoc m (exactKey p.2.text) p.1
      let ck := clean_text p.2.text
      if ck ≠ exactKey p.2.text then insertAssoc m1 ck p.1 else m1)
    []

/-- AnswerNormalizer.normalize_answer: exact key lookup, then cleaned key
lookup, then the first dict entry whose key is a substring or superstring
of the cleaned input, provided the cleaned input is longer than 3
characters (answer_normalizer.py lines 43-70). -/
def normalize_answer (m : List (String × String)) (answer_text : String) : Option String :=
  match lookupAssoc m (exactKey answer_text) with
  | some aid => some aid
  | none =>
    let ck := clean_text answer_text
    match lookupAssoc m ck with
    | some aid => some aid
    | none =>
      (m.find? (fun p =>
        (isSubstr ck p.1 || isSubstr p.1 ck) && decide (3 < ck.length))).map (fun p => p.2)

/-- One normalized answer produced at request time
(answer_normalizer.py lines 93-101 and 113-122). -/
structure NormalizedAnswer where
  answer_id : String
  selection_order : Nat
  question_order : Nat
  axes : Axes
  category : String
  text : String
  question : String
  sub_question : Option String
deriving DecidableEq

/-- A sub-question entry of a quiz submission item. -/
structure SubQuestion where
  sub_question : String
  sub_answers : List String
deriving DecidableEq

/-- One entry of a quiz submission; a missing `answers`/`sub_questions`
key is modelled by the empty list, which the source skips identically. -/
structure QuizItem where
  question : String
  answers : List String
  sub_questions : List SubQuestion
deriving DecidableEq

/-- Normalize one list of raw answer texts, threading the per-question
index `idx` and the submission-wide `global_order` counter; unmatched
texts are skipped without advancing the global counter
(answer_normalizer.py lines 85-123, both the flat and the sub-answer loop
have this exact shape). -/
def normalize_texts (db : List (String × AnswerData)) (m : List (String × String))
    (question : String) (subq : Option String) :
    List String → Nat → Nat → List NormalizedAnswer × Nat
  | [], _, g => ([], g)
  | t :: ts, idx, g =>
    match normalize_answer m t with
    | none => normalize_texts db m question subq ts (idx + 1) g
    | some aid =>
      match lookupAssoc db aid with
      | none => normalize_texts db m question subq ts (idx + 1) g
      | some d =>
        let na : NormalizedAnswer :=
          ⟨aid, g, idx, d.axes, d.category, d.text, question, subq⟩
        let rest := normalize_texts db m question subq ts (idx + 1) (g + 1)
        (na :: rest.1, rest.2)

/-- Fold the sub-questions of one quiz item (answer_normalizer.py
lines 105-123). -/
def normalize_subqs (db : List (String × AnswerData)) (m : List (String × String))
    (question : String) : List SubQuestion → Nat → List NormalizedAnswer × Nat
  | [], g => ([], g)
  | sq :: sqs, g =>
    let r1 := normalize_texts db m question (some sq.sub_question) sq.sub_answers 0 g
    let r2 := normalize_subqs db m question sqs r1.2
    (r1.1 ++ r2.1, r2.2)

/-- Walk all quiz items, direct answers first, then sub-question answers,
with one shared global order counter (answer_normalizer.py lines 82-125). -/
def normalize_items (db : List (String × AnswerData)) (m : List (String × String)) :
    List QuizItem → Nat → List NormalizedAnswer × Nat
  | [], g => ([], g)
  | it :: its, g =>
    let r1 := normalize_texts db m it.question none it.answers 0 g
    let r2 := normalize_subqs db m it.question it.sub_questions r1.2
    let r3 := normalize_items db m its r2.2
    (r1.1 ++ r2.1 ++ r3.1, r3.2)

/-- AnswerNormalizer.normalize_quiz_answers (answer_normalizer.py
lines 72-125). -/
def normalize_quiz_answers (db : List (String × AnswerData)) (m : List (String × String))
    (items : List QuizItem) : List NormalizedAnswer :=
  (normalize_items db m items 0).1

/-- Stable insertion of `x` into a key-sorted list: `x` goes in front of
the first element whose key is not smaller, so earlier list elements with
equal keys stay in front, exactly like Python's stable `sort`. -/
def insertSorted {α β : Type} [LinearOrder β] (key : α → β) (x : α) : List α → List α
  | [] => [x]
  | y :: ys => if key x ≤ key y then x :: y :: ys else y :: insertSorted key x ys

/-- Stable ascending sort by a key function, modelling Python
`list.sort(key=...)`. -/
def sortByKey {α β : Type} [LinearOrder β] (key : α → β) (l : List α) : List α :=
  l.foldr (insertSorted key) []

/-- One raw tier result (the dicts built inside the tier methods).
`distSq` holds the square of the source's `distance` float: `0.0` for
Tier 1 (0² = 0), the squared Euclidean distance for Tier 2, and
`999.0²` for the Tier-3 placeholder `999.0`. -/
structure MatchResult where
  alignment : AlignmentData
  distSq : ℚ
  match_type : String
deriving DecidableEq

/-- Alignment._is_subsequence: the greedy single-pass pointer walk
(alignment.py lines 291-306).  The structural recursion below is the same
walk: consume the user sequence left to right and advance past the head
component exactly when the current user answer equals it. -/
def is_subsequence : List String → List String → Bool
  | [], _ => true
  | _ :: _, [] => false
  | c :: cs, u :: us => if u = c then is_subsequence cs us else is_subsequence (c :: cs) us

/-- Alignment._tier1_exact_match (alignment.py lines 127-172): keep every
alignment whose component set is contained in the user's answer ids and,
when `component_order_matters`, whose components form a subsequence of the
user's answers sorted by selection order; then stable-sort descending by
component count (modelled as ascending by negated count). -/
def tier1_exact_match (user_answer_ids : List String)
    (normalized_answers : List NormalizedAnswer)
    (alignments : List (String × AlignmentData)) : List MatchResult :=
  let user_sequence :=
    (sortByKey (fun a => a.selection_order) normalized_answers).map (fun a => a.answer_id)
  let exact_matches := alignments.filterMap (fun p =>
    let a := p.2
    if a.components.all (fun c => user_answer_ids.contains c) then
      if a.component_order_matters then
        (if is_subsequence a.components user_sequence then
          some ⟨a, 0, "exact_ordered"⟩
        else none)
      else some ⟨a, 0, "exact_unordered"⟩
    else none)
  sortByKey (fun r => -(r.alignment.components.length : Int)) exact_matches

/-- Squared Euclidean distance between two axis profiles; the source
computes `math.sqrt` of this value (alignment.py lines 282-289). -/
def euclidean_dist_sq (p q : Axes) : ℚ :=
  (p.energy - q.energy) ^ 2 + (p.pace - q.pace) ^ 2 + (p.orientation - q.orientation) ^ 2 +
    (p.struct - q.struct) ^ 2 + (p.expression - q.expression) ^ 2

/-- Alignment._tier2_axis_match (alignment.py lines 174-203): keep the
alignments sharing at least one category with the user, compute the axis
distance, and stable-sort ascending by distance (equivalently, by squared
distance, since squaring is strictly monotone on nonnegative reals). -/
def tier2_axis_match (user_profile : Axes) (user_categories : List String)
    (alignments : List (String × AlignmentData)) : List MatchResult :=
  let candidates := alignments.filterMap (fun p =>
    let a := p.2
    if a.categories.any (fun c => user_categories.contains c) then
      some ⟨a, euclidean_dist_sq user_profile a.axes, "axis_distance"⟩
    else none)
  sortByKey (fun r => r.distSq) candidates

/-- Alignment._calculate_user_profile (alignment.py lines 251-280):
weighted average of the answers' axes after sorting by selection order,
with weight `1/(idx+1)`. -/
def calculate_user_profile (normalized_answers : List NormalizedAnswer) : Axes :=
  if normalized_answers = [] then Axes.zero
  else
    let sorted := sortByKey (fun a => a.selection_order) normalized_answers
    let step := fun (acc : Axes × ℚ) (p : Nat × NormalizedAnswer) =>
      let w : ℚ := 1 / (p.1 + 1)
      (⟨acc.1.energy + p.2.axes.energy * w, acc.1.pace + p.2.axes.pace * w,
        acc.1.orientation + p.2.axes.orientation * w, acc.1.struct + p.2.axes.struct * w,
        acc.1.expression + p.2.axes.expression * w⟩, acc.2 + w)
    let r := sorted.enum.foldl step (Axes.zero, 0)
    if 0 < r.2 then
      ⟨r.1.energy / r.2, r.1.pace / r.2, r.1.orientation / r.2, r.1.struct / r.2,
        r.1.expression / r.2⟩
    else r.1

/-- The in-memory service state of the `Alignment` engine.  `answers` and
`alignments` model the two insertion-ordered dicts of
`AlignmentDataStore`; `hasCollection` models whether `_collection` is set;
`vectorQuery` is the external ChromaDB nearest-neighbor call
`self._collection.query(...)` of data_store.py lines 254-260, an opaque
fallible collaborator taking the query text and `n_results`. -/
structure AlignmentService where
  answers : List (String × AnswerData)
  alignments : List (String × AlignmentData)
  hasCollection : Bool
  vectorQuery : String → Nat → Except String (List String)

/-- Decidable equality for fallible results, so that concrete runs of the
engine can be checked by `decide`. -/
instance exceptDecEq {ε α : Type} [DecidableEq ε] [DecidableEq α] :
    DecidableEq (Except ε α)
  | .ok a, .ok b =>
    if h : a = b then .isTrue (by rw [h]) else .isFalse (by intro hh; cases hh; exact h rfl)
  | .error a, .error b =>
    if h : a = b then .isTrue (by rw [h]) else .isFalse (by intro hh; cases hh; exact h rfl)
  | .ok _, .error _ => .isFalse (by intro h; cases h)
  | .error _, .ok _ => .isFalse (by intro h; cases h)

/-- AlignmentDataStore.query_vector (data_store.py lines 235-260, called
without a category filter): return `[]` when no collection exists,
otherwise issue the external query.  Note the source wraps the external
call in no `try`/`except`: a raised error propagates. -/
def query_vector (svc : AlignmentService) (query_text : String) (n_results : Nat) :
    Except String (List String) :=
  if svc.hasCollection = false then .ok [] else svc.vectorQuery query_text n_results

/-- The category-fallback loop of Alignment._tier3_vector_fallback
(alignment.py lines 236-247): append every alignment sharing a category
with the user, checking `len(results) >= n_results` after each iteration
(so the break fires whether or not the current row was appended). -/
def category_fallback (user_categories : List String) (n_results : Nat) :
    List (String × AlignmentData) → List MatchResult → List MatchResult
  | [], acc => acc
  | p :: rest, acc =>
    let acc' :=
      if p.2.categories.any (fun c => user_categories.contains c) then
        acc ++ [⟨p.2, 999 * 999, "category_fallback"⟩]
      else acc
    if n_results ≤ acc'.length then acc'
    else category_fallback user_categories n_results rest acc'

/-- Alignment._tier3_vector_fallback (alignment.py lines 205-249): join the
answer texts into a query, fetch `2*n_results` neighbor ids, keep the ids
known to the alignment catalog, fall back to category-matching alignments
when that yields nothing, and truncate to `n_results`.  The external query
is not guarded, so its error is the whole tier's result. -/
def tier3_vector_fallback (svc : AlignmentService)
    (normalized_answers : List NormalizedAnswer) (user_categories : List String)
    (n_results : Nat) : Except String (List MatchResult) :=
  let query_text := String.intercalate " " (normalized_answers.map (fun a => a.text))
  match query_vector svc query_text (n_results * 2) with
  | .error e => .error e
  | .ok alignment_ids =>
    let results := alignment_ids.filterMap (fun aid =>
      (lookupAssoc svc.alignments aid).map (fun a => ⟨a, 999 * 999, "vector_similarity"⟩))
    let results :=
      if results = [] then category_fallback user_categories n_results svc.alignments []
      else results
    .ok (results.take n_results)

/-- The Tier-2 confidence formula of Alignment._format_results line 334:
`max(0.5, 1.0 - distance/6.0)`, applied to the reported distance before
rounding.  Stated over `ℚ`; the algebraic identities proved about it hold
for the real-valued distance by the same `max`/linear reasoning. -/
def tier2_confidence (distance : ℚ) : ℚ := max (1 / 2) (1 - distance / 6)

/-- One output record of Alignment._format_results (alignment.py
lines 308-348).  The numeric `confidence`/`distance` floats of the source
are functions of the tier tag and the (generally irrational) Tier-2
Euclidean distance — `1.0` for `exact`, `tier2_confidence` of the distance
for `axis`, `0.5` otherwise, each rounded — and are modelled separately by
`tier2_confidence`; no claim depends on the rounded payload values. -/
structure FormattedResult where
  id : String
  type : String
  title : String
  description : String
  match_tier : String
deriving DecidableEq

/-- Alignment._format_results: copy id/type/title/description from each
result's alignment and tag it with the tier label (alignment.py
lines 322-348). -/
def format_results (raw_results : List MatchResult) (tier : String) : List FormattedResult :=
  raw_results.map (fun r =>
    ⟨r.alignment.id, r.alignment.type, r.alignment.title, r.alignment.description, tier⟩)

/-- Tier-3 leg of the orchestrator (alignment.py lines 118-125): run the
vector fallback and format the truncated results with the `vector` tag. -/
def tier3_path (svc : AlignmentService) (normalized : List NormalizedAnswer)
    (user_categories : List String) (max_results : Nat) :
    Except String (List FormattedResult) :=
  (tier3_vector_fallback svc normalized user_categories max_results).map
    (fun rs => format_results (rs.take max_results) "vector")

/-- Tier-2 gate and dispatch of the orchestrator (alignment.py
lines 109-125): accept Tier 2 exactly when it is non-empty and its first
(smallest) distance is below the threshold 3.0 — on squared distances,
below 9. -/
def after_tier1 (svc : AlignmentService) (normalized : List NormalizedAnswer)
    (user_profile : Axes) (user_categories : List String) (max_results : Nat) :
    Except String (List FormattedResult) :=
  match tier2_axis_match user_profile user_categories svc.alignments with
  | [] => tier3_path svc normalized user_categories max_results
  | b :: rest =>
    if b.distSq < 9 then
      .ok (format_results ((b :: rest).take max_results) "axis")
    else tier3_path svc normalized user_categories max_results

/-- Orchestrator body after normalization (alignment.py lines 95-125). -/
def after_normalize (svc : AlignmentService) (normalized : List NormalizedAnswer)
    (max_results : Nat) : Except String (List FormattedResult) :=
  let user_profile := calculate_user_profile normalized
  let user_answer_ids := normalized.map (fun a => a.answer_id)
  let user_categories := normalized.map (fun a => a.category)
  match tier1_exact_match user_answer_ids normalized svc.alignments with
  | [] => after_tier1 svc normalized user_profile user_categories max_results
  | r :: rs => .ok (format_results ((r :: rs).take max_results) "exact")

/-- Alignment.match (alignment.py lines 58-125): normalize the submission,
short-circuit to `[]` when nothing normalized, else run the tier chain.
The name `match` is a reserved word in Lean, hence `matchQuiz`. -/
def matchQuiz (svc : AlignmentService) (items : List QuizItem) (max_results : Nat) :
    Except String (List FormattedResult) :=
  let normalized := normalize_quiz_answers svc.answers (build_lookup_map svc.answers) items
  if normalized = [] then .ok []
  else after_normalize svc normalized max_results

/-- AlignmentDataStore._compute_alignment_axes (data_store.py
lines 148-177): weighted average of the component answers' axes, with
weight `1/(idx+1)` at the component's listed position (missing components
are skipped but still consume their position's weight index). -/
def compute_alignment_axes (answers : List (String × AnswerData))
    (components : List String) : Axes :=
  if components = [] then Axes.zero
  else
    let step := fun (acc : Axes × ℚ) (p : Nat × String) =>
      match lookupAssoc answers p.2 with
      | none => acc
      | some d =>
        let w : ℚ := 1 / (p.1 + 1)
        (⟨acc.1.energy + d.axes.energy * w, acc.1.pace + d.axes.pace * w,
          acc.1.orientation + d.axes.orientation * w, acc.1.struct + d.axes.struct * w,
          acc.1.expression + d.axes.expression * w⟩, acc.2 + w)
    let r := components.enum.foldl step (Axes.zero, 0)
    if 0 < r.2 then
      ⟨r.1.energy / r.2, r.1.pace / r.2, r.1.orientation / r.2, r.1.struct / r.2,
        r.1.expression / r.2⟩
    else r.1

/-- Split an `Alignment_Components` cell on `+` and strip each piece,
keeping the non-empty ones (data_store.py lines 110-111). -/
def parse_components (s : String) : List String :=
  ((s.data.splitOn '+').map (fun cs => pyStrip (String.mk cs))).filter (fun c => c ≠ "")

/-- One alignment row of AlignmentDataStore.reload_from_csv (data_store.py
lines 104-133): case-normalized type, derived axes, categories as the
deduplicated categories of the resolvable components, and — decisive for
claim C2 — `component_order_matters` hard-coded to `true` for every row,
whatever its type. -/
def mk_alignment (answers : List (String × AnswerData)) (alignment_id ty name desc
    components_str : String) : AlignmentData :=
  let components := parse_components components_str
  { id := alignment_id
    type := pyUpper (pyStrip ty)
    name := pyStrip name
    title := pyStrip name
    description := pyStrip desc
    components := components
    component_order_matters := true
    axes := compute_alignment_axes answers components
    categories := (components.filterMap (fun c =>
      (lookupAssoc answers c).map (fun d => d.category))).dedup }

/-! Concrete fixtures used to evaluate the engine on closed inputs. -/

/-- Catalog answer `COLOR_RED` of the spec's walk-through scenario. -/
def ansRed : AnswerData :=
  ⟨"COLOR_RED", "Q1", "pick", "Red", "color", none, ⟨80, 0, 0, 0, 0⟩⟩

/-- Catalog answer `COLOR_BLUE` of the spec's walk-through scenario. -/
def ansBlue : AnswerData :=
  ⟨"COLOR_BLUE", "Q1", "pick", "Blue", "color", none, ⟨20, 0, 0, 0, 0⟩⟩

/-- Two-answer catalog. -/
def answersW : List (String × AnswerData) := [("COLOR_RED", ansRed), ("COLOR_BLUE", ansBlue)]

/-- The `POLARITY_RED_BLUE` alignment as the CSV loader builds it. -/
def alignPolarity : AlignmentData :=
  mk_alignment answersW "POLARITY_RED_BLUE" "polarity" "Red and Blue" "When Red meets Blue"
    "COLOR_RED+COLOR_BLUE"

/-- A loaded service over that catalog, with a vector collection whose
queries return no neighbors. -/
def svcW : AlignmentService :=
  ⟨answersW, [("POLARITY_RED_BLUE", alignPolarity)], true, fun _ _ => .ok []⟩

/-- Submission selecting Red then Blue. -/
def itemsRB : List QuizItem := [⟨"pick", ["Red", "Blue"], []⟩]

/-- Submission whose single raw answer matches no catalog text. -/
def itemsNoMatch : List QuizItem := [⟨"pick", ["qqqq"], []⟩]

/-- Normalized Blue-then-Red answers (selection order reversed relative to
the polarity's component order). -/
def naBlueFirst : List NormalizedAnswer :=
  [⟨"COLOR_BLUE", 0, 0, ⟨20, 0, 0, 0, 0⟩, "color", "Blue", "pick", none⟩,
   ⟨"COLOR_RED", 1, 1, ⟨80, 0, 0, 0, 0⟩, "color", "Red", "pick", none⟩]

/-- Catalog answer whose text is `x`, used to drive the engine into
Tier 3. -/
def ansX : AnswerData := ⟨"ANS_X", "Q1", "q", "x", "catX", none, Axes.zero⟩

/-- An alignment sharing the user's category but lying far away in axis
space (squared distance 100 ≥ 9), with a component the user never picked. -/
def alignFar : AlignmentData :=
  ⟨"AL2", "HARMONY", "Far", "Far", "far away", ["ANS_Y"], true, ⟨10, 0, 0, 0, 0⟩, ["catX"]⟩

/-- A service whose external vector query raises. -/
def svcErr : AlignmentService :=
  ⟨[("ANS_X", ansX)], [("AL2", alignFar)], true, fun _ _ => .error "boom"⟩

/-- The same service with a vector query that returns no neighbors. -/
def svcOkEmpty : AlignmentService :=
  ⟨[("ANS_X", ansX)], [("AL2", alignFar)], true, fun _ _ => .ok []⟩

/-- Submission selecting the `x` answer. -/
def itemsX : List QuizItem := [⟨"q", ["x"], []⟩]

/-- Catalog answer with text `red`. -/
def ansRedPlain : AnswerData := ⟨"A1", "Q1", "q", "red", "c", none, Axes.zero⟩

/-- Catalog answer with text `red!`, whose cleaned form collides with the
exact key of `ansRedPlain`. -/
def ansRedBang : AnswerData := ⟨"B1", "Q1", "q", "red!", "c", none, Axes.zero⟩

/-- Catalog in which a later answer's cleaned key overwrites an earlier
answer's exact key. -/
def collideDb : List (String × AnswerData) := [("A1", ansRedPlain), ("B1", ansRedBang)]

/-- Normalized Red-then-Blue answers (component order respected). -/
def naRedFirst : List NormalizedAnswer :=
  [⟨"COLOR_RED", 0, 0, ⟨80, 0, 0, 0, 0⟩, "color", "Red", "pick", none⟩,
   ⟨"COLOR_BLUE", 1, 1, ⟨20, 0, 0, 0, 0⟩, "color", "Blue", "pick", none⟩]

/-- A hand-built alignment whose order flag is off, exercising the
unordered Tier-1 branch. -/
def alignUnordered : AlignmentData :=
  ⟨"U1", "RESONANCE", "Solo Red", "Solo Red", "just red", ["COLOR_RED"], false,
    Axes.zero, ["color"]⟩

/-! Lemmas about the stable key sort. -/

theorem mem_insertSorted {α β : Type} [LinearOrder β] (key : α → β) (x a : α)
    (l : List α) : a ∈ insertSorted key x l ↔ a = x ∨ a ∈ l := by
  induction l with
  | nil => simp [insertSorted]
  | cons y ys ih =>
    simp only [insertSorted]
    by_cases h : key x ≤ key y
    · simp [h]
    · simp only [h, if_false, List.mem_cons, ih]
      tauto

theorem mem_sortByKey {α β : Type} [LinearOrder β] (key : α → β) (a : α)
    (l : List α) : a ∈ sortByKey key l ↔ a ∈ l := by
  induction l with
  | nil => simp [sortByKey]
  | cons y ys ih =>
    simp only [sortByKey, List.foldr] at ih ⊢
    rw [mem_insertSorted, ih, List.mem_cons]

theorem pairwise_insertSorted {α β : Type} [LinearOrder β] (key : α → β) (x : α)
    (l : List α) (h : l.Pairwise (fun a b => key a ≤ key b)) :
    (insertSorted key x l).Pairwise (fun a b => key a ≤ key b) := by
  induction l with
  | nil => simp [insertSorted]
  | cons y ys ih =>
    rw [List.pairwise_cons] at h
    simp only [insertSorted]
    by_cases hxy : key x ≤ key y
    · rw [if_pos hxy, List.pairwise_cons]
      refine ⟨?_, List.pairwise_cons.mpr h⟩
      intro z hz
      rcases List.mem_cons.mp hz with hz | hz
      · exact hz ▸ hxy
      · exact le_trans hxy (h.1 z hz)
    · rw [if_neg hxy, List.pairwise_cons]
      refine ⟨?_, ih h.2⟩
      intro z hz
      rcases (mem_insertSorted key x z ys).mp hz with hz | hz
      · exact hz ▸ le_of_lt (lt_of_not_le hxy)
      · exact h.1 z hz

theorem pairwise_sortByKey {α β : Type} [LinearOrder β] (key : α → β)
    (l : List α) : (sortByKey key l).Pairwise (fun a b => key a ≤ key b) := by
  induction l with
  | nil => simp [sortByKey]
  | cons y ys ih => exact pairwise_insertSorted key y _ ih

/-- The first element of the key-sorted list has minimal key among all
list elements. -/
theorem sortByKey_head_min {α β : Type} [LinearOrder β] (key : α → β)
    (l : List α) (b : α) (rest : List α) (hs : sortByKey key l = b :: rest) :
    ∀ y ∈ l, key b ≤ key y := by
  intro y hy
  have hy' : y ∈ b :: rest := hs ▸ (mem_sortByKey key y l).mpr hy
  rcases List.mem_cons.mp hy' with h | h
  · exact h ▸ le_refl _
  · have hp := pairwise_sortByKey key l
    rw [hs, List.pairwise_cons] at hp
    exact hp.1 y h

/-- The greedy single-pass pointer walk decides exactly the subsequence
relation: it succeeds if and only if the components embed order-preservingly
(not necessarily contiguously) into the user sequence. -/
theorem is_subsequence_iff_sublist (c u : List String) :
    is_subsequence c u = true ↔ List.Sublist c u := by
  induction u generalizing c with
  | nil =>
    cases c with
    | nil => simp [is_subsequence]
    | cons x cs => simp [is_subsequence]
  | cons a us ih =>
    cases c with
    | nil => simp [is_subsequence, List.nil_sublist]
    | cons x cs =>
      simp only [is_subsequence]
      by_cases hax : a = x
      · subst hax
        rw [if_pos rfl, ih cs, List.cons_sublist_cons]
      · rw [if_neg hax, ih (x :: cs)]
        constructor
        · intro h
          exact h.cons a
        · intro h
          cases h with
          | cons _ h => exact h
          | cons₂ _ _ => exact absurd rfl hax

/-- Membership in the list `contains` test. -/
theorem contains_iff_mem (l : List String) (c : String) :
    l.contains c = true ↔ c ∈ l := by
  simp [List.contains]

/-- Every Tier-1 result comes from a catalog row, its component set passed
the subset test, and — when the row is order-sensitive — its components
passed the greedy subsequence test. -/
theorem tier1_mem_elim (user_answer_ids : List String)
    (normalized_answers : List NormalizedAnswer)
    (alignments : List (String × AlignmentData)) (r : MatchResult)
    (h : r ∈ tier1_exact_match user_answer_ids normalized_answers alignments) :
    (∃ p ∈ alignments, r.alignment = p.2) ∧
      (∀ c ∈ r.alignment.components, c ∈ user_answer_ids) := by
  unfold tier1_exact_match at h
  rw [mem_sortByKey] at h
  rcases List.mem_filterMap.mp h with ⟨p, hp, hf⟩
  by_cases hall : p.2.components.all (fun c => user_answer_ids.contains c) = true
  · rw [if_pos hall] at hf
    have hsub : ∀ c ∈ p.2.components, c ∈ user_answer_ids := by
      intro c hc
      exact (contains_iff_mem _ _).mp (List.all_eq_true.mp hall c hc)
    by_cases hord : p.2.component_order_matters = true
    · rw [if_pos hord] at hf
      by_cases hseq : is_subsequence p.2.components
          ((sortByKey (fun a => a.selection_order) normalized_answers).map
            (fun a => a.answer_id)) = true
      · rw [if_pos hseq] at hf
        cases hf
        exact ⟨⟨p, hp, rfl⟩, hsub⟩
      · rw [if_neg hseq] at hf
        cases hf
    · rw [if_neg hord] at hf
      cases hf
      exact ⟨⟨p, hp, rfl⟩, hsub⟩
  · rw [if_neg hall] at hf
    cases hf

/-- A catalog row that is not order-sensitive is matched by Tier 1 as soon
as its component set is contained in the user's answer ids. -/
theorem tier1_mem_intro_unordered (user_answer_ids : List String)
    (normalized_answers : List NormalizedAnswer)
    (alignments : List (String × AlignmentData)) (p : String × AlignmentData)
    (hp : p ∈ alignments) (hord : p.2.component_order_matters = false)
    (hsub : ∀ c ∈ p.2.components, c ∈ user_answer_ids) :
    (⟨p.2, 0, "exact_unordered"⟩ : MatchResult) ∈
      tier1_exact_match user_answer_ids normalized_answers alignments := by
  unfold tier1_exact_match
  rw [mem_sortByKey]
  refine List.mem_filterMap.mpr ⟨p, hp, ?_⟩
  have hall : p.2.components.all (fun c => user_answer_ids.contains c) = true :=
    List.all_eq_true.mpr (fun c hc => (contains_iff_mem _ _).mpr (hsub c hc))
  rw [if_pos hall, hord]
  simp

/-- Every Tier-2 result comes from a catalog row sharing a category with
the user, and carries the squared axis distance of that row. -/
theorem tier2_mem_elim (user_profile : Axes) (user_categories : List String)
    (alignments : List (String × AlignmentData)) (r : MatchResult)
    (h : r ∈ tier2_axis_match user_profile user_categories alignments) :
    ∃ p ∈ alignments, r.alignment = p.2 ∧
      r.distSq = euclidean_dist_sq user_profile p.2.axes := by
  unfold tier2_axis_match at h
  rw [mem_sortByKey] at h
  rcases List.mem_filterMap.mp h with ⟨p, hp, hf⟩
  by_cases hcat : p.2.categories.any (fun c => user_categories.contains c) = true
  · rw [if_pos hcat] at hf
    cases hf
    exact ⟨p, hp, rfl, rfl⟩
  · rw [if_neg hcat] at hf
    cases hf

/-- The category-fallback loop never shrinks its accumulator. -/
theorem category_fallback_length_mono (user_categories : List String) (n : Nat)
    (alignments : List (String × AlignmentData)) (acc : List MatchResult) :
    acc.length ≤ (category_fallback user_categories n alignments acc).length := by
  induction alignments generalizing acc with
  | nil => simp [category_fallback]
  | cons p rest ih =>
    simp only [category_fallback]
    by_cases hc : p.2.categories.any (fun c => user_categories.contains c) = true
    · rw [if_pos hc]
      by_cases hstop : n ≤ (acc ++ [(⟨p.2, 999 * 999, "category_fallback"⟩ : MatchResult)]).length
      · rw [if_pos hstop]
        simp
      · rw [if_neg hstop]
        calc acc.length ≤ (acc ++ [(⟨p.2, 999 * 999, "category_fallback"⟩ : MatchResult)]).length := by simp
          _ ≤ _ := ih _
    · rw [if_neg hc]
      by_cases hstop : n ≤ acc.length
      · rw [if_pos hstop]
      · rw [if_neg hstop]
        exact ih acc

/-- When the requested count is positive, the category-fallback loop ends
non-empty as soon as it starts non-empty or some row shares a category. -/
theorem category_fallback_ne_nil (user_categories : List String) (n : Nat)
    (alignments : List (String × AlignmentData)) (acc : List MatchResult)
    (hn : 1 ≤ n)
    (h : acc ≠ [] ∨ ∃ p ∈ alignments,
      p.2.categories.any (fun c => user_categories.contains c) = true) :
    category_fallback user_categories n alignments acc ≠ [] := by
  induction alignments generalizing acc with
  | nil =>
    simp only [category_fallback]
    rcases h with h | ⟨p, hp, _⟩
    · exact h
    · exact absurd hp (List.not_mem_nil p)
  | cons p rest ih =>
    simp only [category_fallback]
    by_cases hc : p.2.categories.any (fun c => user_categories.contains c) = true
    · rw [if_pos hc]
      by_cases hstop : n ≤ (acc ++ [(⟨p.2, 999 * 999, "category_fallback"⟩ : MatchResult)]).length
      · rw [if_pos hstop]
        simp
      · rw [if_neg hstop]
        exact ih _ (Or.inl (by simp))
    · rw [if_neg hc]
      by_cases hstop : n ≤ acc.length
      · rw [if_pos hstop]
        intro hnil
        rw [hnil] at hstop
        simp at hstop
        omega
      · rw [if_neg hstop]
        refine ih acc ?_
        rcases h with h | ⟨q, hq, hqc⟩
        · exact Or.inl h
        · rcases List.mem_cons.mp hq with rfl | hq
          · exact absurd hqc hc
          · exact Or.inr ⟨q, hq, hqc⟩

/-- Every element the category-fallback loop emits was already in the
accumulator or comes from a catalog row. -/
theorem category_fallback_mem_elim (user_categories : List String) (n : Nat)
    (alignments : List (String × AlignmentData)) (acc : List MatchResult)
    (r : MatchResult) (h : r ∈ category_fallback user_categories n alignments acc) :
    r ∈ acc ∨ ∃ p ∈ alignments, r.alignment = p.2 := by
  induction alignments generalizing acc with
  | nil =>
    simp only [category_fallback] at h
    exact Or.inl h
  | cons p rest ih =>
    simp only [category_fallback] at h
    by_cases hc : p.2.categories.any (fun c => user_categories.contains c) = true
    · rw [if_pos hc] at h
      by_cases hstop : n ≤ (acc ++ [(⟨p.2, 999 * 999, "category_fallback"⟩ : MatchResult)]).length
      · rw [if_pos hstop] at h
        rcases List.mem_append.mp h with h | h
        · exact Or.inl h
        · simp at h
          exact Or.inr ⟨p, List.mem_cons_self p rest, by rw [h]⟩
      · rw [if_neg hstop] at h
        rcases ih _ h with h | ⟨q, hq, hqa⟩
        · rcases List.mem_append.mp h with h | h
          · exact Or.inl h
          · simp at h
            exact Or.inr ⟨p, List.mem_cons_self p rest, by rw [h]⟩
        · exact Or.inr ⟨q, List.mem_cons_of_mem p hq, hqa⟩
    · rw [if_neg hc] at h
      by_cases hstop : n ≤ acc.length
      · rw [if_pos hstop] at h
        exact Or.inl h
      · rw [if_neg hstop] at h
        rcases ih _ h with h | ⟨q, hq, hqa⟩
        · exact Or.inl h
        · exact Or.inr ⟨q, List.mem_cons_of_mem p hq, hqa⟩

/-- Taking a positive number of elements from a non-empty list is
non-empty. -/
theorem take_ne_nil_of_ne_nil {α : Type} (l : List α) (n : Nat) (hn : 1 ≤ n)
    (hl : l ≠ []) : l.take n ≠ [] := by
  cases l with
  | nil => exact absurd rfl hl
  | cons x xs =>
    cases n with
    | zero => omega
    | succ m => simp [List.take]

/-- Tier 3 never returns more than `n_results` results. -/
theorem tier3_length_le (svc : AlignmentService)
    (normalized_answers : List NormalizedAnswer) (user_categories : List String)
    (n_results : Nat) (rs : List MatchResult)
    (h : tier3_vector_fallback svc normalized_answers user_categories n_results = .ok rs) :
    rs.length ≤ n_results := by
  unfold tier3_vector_fallback at h
  dsimp only [] at h
  rcases hq : query_vector svc
      (String.intercalate " " (normalized_answers.map (fun a => a.text)))
      (n_results * 2) with e | ids
  · rw [hq] at h
    cases h
  · rw [hq] at h
    simp only [Except.ok.injEq] at h
    cases h
    exact le_trans (List.length_take_le _ _) (le_refl _)

/-- Tier 3 returns at least one result whenever the requested count is
positive and some catalog row shares a category with the user — for every
successful run of the external neighbor query. -/
theorem tier3_ne_nil (svc : AlignmentService)
    (normalized_answers : List NormalizedAnswer) (user_categories : List String)
    (n_results : Nat) (rs : List MatchResult) (hn : 1 ≤ n_results)
    (hshare : ∃ p ∈ svc.alignments,
      p.2.categories.any (fun c => user_categories.contains c) = true)
    (h : tier3_vector_fallback svc normalized_answers user_categories n_results = .ok rs) :
    rs ≠ [] := by
  unfold tier3_vector_fallback at h
  dsimp only [] at h
  rcases hq : query_vector svc
      (String.intercalate " " (normalized_answers.map (fun a => a.text)))
      (n_results * 2) with e | ids
  · rw [hq] at h
    cases h
  · rw [hq] at h
    simp only [Except.ok.injEq] at h
    by_cases hres : ids.filterMap (fun aid => (lookupAssoc svc.alignments aid).map
        (fun a => (⟨a, 999 * 999, "vector_similarity"⟩ : MatchResult))) = []
    · rw [if_pos hres] at h
      cases h
      exact take_ne_nil_of_ne_nil _ _ hn
        (category_fallback_ne_nil _ _ _ _ hn (Or.inr hshare))
    · rw [if_neg hres] at h
      cases h
      exact take_ne_nil_of_ne_nil _ _ hn hres

/-- When Tier 3 returns zero results (with a positive requested count),
the neighbor query succeeded but yielded no id known to the catalog, and
no catalog row shares a category with the user. -/
theorem tier3_nil_elim (svc : AlignmentService)
    (normalized_answers : List NormalizedAnswer) (user_categories : List String)
    (n_results : Nat) (hn : 1 ≤ n_results)
    (h : tier3_vector_fallback svc normalized_answers user_categories n_results = .ok []) :
    (∀ ids, query_vector svc
        (String.intercalate " " (normalized_answers.map (fun a => a.text)))
        (n_results * 2) = .ok ids →
      ∀ aid ∈ ids, lookupAssoc svc.alignments aid = none) ∧
    (∀ p ∈ svc.alignments,
      p.2.categories.any (fun c => user_categories.contains c) = false) := by
  constructor
  · intro ids hids aid haid
    unfold tier3_vector_fallback at h
    dsimp only [] at h
    rw [hids] at h
    simp only [Except.ok.injEq] at h
    by_cases hres : ids.filterMap (fun aid => (lookupAssoc svc.alignments aid).map
        (fun a => (⟨a, 999 * 999, "vector_similarity"⟩ : MatchResult))) = []
    · have := List.filterMap_eq_nil_iff.mp hres aid haid
      rcases hl : lookupAssoc svc.alignments aid with _ | a
      · rfl
      · rw [hl] at this
        simp at this
    · rw [if_neg hres] at h
      exact absurd h (take_ne_nil_of_ne_nil _ _ hn hres)
  · intro p hp
    by_contra hc
    have hc' : p.2.categories.any (fun c => user_categories.contains c) = true := by
      cases hv : p.2.categories.any (fun c => user_categories.contains c)
      · exact absurd hv hc
      · rfl
    exact tier3_ne_nil svc normalized_answers user_categories n_results []
      hn ⟨p, hp, hc'⟩ h rfl

/-- Every Tier-3 result comes from a catalog row. -/
theorem tier3_mem_elim (svc : AlignmentService)
    (normalized_answers : List NormalizedAnswer) (user_categories : List String)
    (n_results : Nat) (rs : List MatchResult) (r : MatchResult)
    (h : tier3_vector_fallback svc normalized_answers user_categories n_results = .ok rs)
    (hr : r ∈ rs) : ∃ p ∈ svc.alignments, r.alignment = p.2 := by
  unfold tier3_vector_fallback at h
  dsimp only [] at h
  rcases hq : query_vector svc
      (String.intercalate " " (normalized_answers.map (fun a => a.text)))
      (n_results * 2) with e | ids
  · rw [hq] at h
    cases h
  · rw [hq] at h
    simp only [Except.ok.injEq] at h
    by_cases hres : ids.filterMap (fun aid => (lookupAssoc svc.alignments aid).map
        (fun a => (⟨a, 999 * 999, "vector_similarity"⟩ : MatchResult))) = []
    · rw [if_pos hres] at h
      cases h
      have hr' := List.take_subset _ _ hr
      rcases category_fallback_mem_elim _ _ _ _ _ hr' with habs | hgood
      · exact absurd habs (List.not_mem_nil r)
      · exact hgood
    · rw [if_neg hres] at h
      cases h
      have hr' := List.take_subset _ _ hr
      rcases List.mem_filterMap.mp hr' with ⟨aid, _, hf⟩
      rcases hl : lookupAssoc svc.alignments aid with _ | a
      · rw [hl] at hf
        simp at hf
      · rw [hl] at hf
        simp only [Option.map_some'] at hf
        cases hf
        unfold lookupAssoc at hl
        rcases hfind : svc.alignments.find? (fun p => p.1 = aid) with _ | p
        · rw [hfind] at hl
          simp at hl
        · rw [hfind] at hl
          simp only [Option.map_some'] at hl
          cases hl
          exact ⟨p, List.mem_of_find?_eq_some hfind, rfl⟩

/-- Justification for carrying squared distances: the source's gate
`math.sqrt(s) < 3.0` holds exactly when `s < 9` (the embedding's gate),
since the squared Euclidean distance is nonnegative. -/
theorem sqrt_lt_three_iff_sq_lt_nine (s : ℝ) : Real.sqrt s < 3 ↔ s < 9 ∨ s < 0 := by
  constructor
  · intro h
    rcases le_or_lt 0 s with hs | hs
    · refine Or.inl ?_
      have := (Real.sqrt_lt' (by norm_num : (0:ℝ) < 3)).mp h
      norm_num at this
      exact this
    · exact Or.inr hs
  · intro h
    rcases h with h | h
    · exact (Real.sqrt_lt' (by norm_num : (0:ℝ) < 3)).mpr (by norm_num; exact h)
    · rw [Real.sqrt_eq_zero_of_nonpos (le_of_lt h)]
      norm_num

/-- The first element of a non-empty key-sorted list has minimal key
within the sorted list itself. -/
theorem sortByKey_head_min_out {α β : Type} [LinearOrder β] (key : α → β)
    (l : List α) (b : α) (rest : List α) (hs : sortByKey key l = b :: rest) :
    ∀ y ∈ b :: rest, key b ≤ key y := by
  intro y hy
  rcases List.mem_cons.mp hy with rfl | hy
  · exact le_refl _
  · have hp := pairwise_sortByKey key l
    rw [hs, List.pairwise_cons] at hp
    exact hp.1 y hy

/-- C1: for every submission with at least one normalized answer, `match`
follows the tier chain exactly — non-empty Tier-1 results are returned
truncated with tier tag `exact` and no later tier is consulted; otherwise,
when Tier 2 is non-empty, its results are returned truncated with tag
`axis` exactly when its first distance — minimal among all Tier-2
distances — is strictly below the 3.0 threshold (squared: 9), and
otherwise Tier 3 is consulted and its outcome returned. -/
theorem claim_C1_tier_chain (svc : AlignmentService) (items : List QuizItem)
    (max_results : Nat) (normalized : List NormalizedAnswer)
    (hN : normalized = normalize_quiz_answers svc.answers (build_lookup_map svc.answers) items)
    (hn : normalized ≠ []) :
    (tier1_exact_match (normalized.map (fun a => a.answer_id)) normalized svc.alignments ≠ [] →
      matchQuiz svc items max_results = .ok (format_results
        ((tier1_exact_match (normalized.map (fun a => a.answer_id)) normalized
          svc.alignments).take max_results) "exact")) ∧
    (tier1_exact_match (normalized.map (fun a => a.answer_id)) normalized svc.alignments = [] →
      ∀ b rest, tier2_axis_match (calculate_user_profile normalized)
          (normalized.map (fun a => a.category)) svc.alignments = b :: rest →
        (∀ x ∈ b :: rest, b.distSq ≤ x.distSq) ∧
        (b.distSq < 9 → matchQuiz svc items max_results =
          .ok (format_results ((b :: rest).take max_results) "axis")) ∧
        (¬ b.distSq < 9 → matchQuiz svc items max_results =
          tier3_path svc normalized (normalized.map (fun a => a.category)) max_results)) ∧
    (tier1_exact_match (normalized.map (fun a => a.answer_id)) normalized svc.alignments = [] →
      tier2_axis_match (calculate_user_profile normalized)
        (normalized.map (fun a => a.category)) svc.alignments = [] →
      matchQuiz svc items max_results =
        tier3_path svc normalized (normalized.map (fun a => a.category)) max_results) := by
  have hmq : matchQuiz svc items max_results =
      after_normalize svc normalized max_results := by
    unfold matchQuiz
    dsimp only []
    rw [← hN, if_neg hn]
  refine ⟨?_, ?_, ?_⟩
  · intro h1
    rcases ht1 : tier1_exact_match (normalized.map (fun a => a.answer_id)) normalized
        svc.alignments with _ | ⟨r, rs⟩
    · exact absurd ht1 h1
    · rw [hmq]
      unfold after_normalize
      dsimp only []
      rw [ht1]
  · intro h1 b rest h2
    refine ⟨?_, ?_, ?_⟩
    · unfold tier2_axis_match at h2
      exact sortByKey_head_min_out _ _ _ _ h2
    · intro hgate
      rw [hmq]
      unfold after_normalize
      dsimp only []
      rw [h1]
      unfold after_tier1
      dsimp only []
      rw [h2]
      dsimp only []
      rw [if_pos hgate]
    · intro hgate
      rw [hmq]
      unfold after_normalize
      dsimp only []
      rw [h1]
      unfold after_tier1
      dsimp only []
      rw [h2]
      dsimp only []
      rw [if_neg hgate]
  · intro h1 h2
    rw [hmq]
    unfold after_normalize
    dsimp only []
    rw [h1]
    unfold after_tier1
    dsimp only []
    rw [h2]

unseal Rat.add Rat.mul Rat.inv Rat.sub in
/-- Witness for C1: on the Red-then-Blue submission the normalized list is
non-empty, Tier 1 is non-empty, and `match` returns exactly the truncated
Tier-1 results tagged `exact`. -/
theorem claim_C1_tier_chain_witness :
    matchQuiz svcW itemsRB 12 = .ok (format_results
      ((tier1_exact_match
        ((normalize_quiz_answers svcW.answers (build_lookup_map svcW.answers) itemsRB).map
          (fun a => a.answer_id))
        (normalize_quiz_answers svcW.answers (build_lookup_map svcW.answers) itemsRB)
        svcW.alignments).take 12) "exact") :=
  (claim_C1_tier_chain svcW itemsRB 12
    (normalize_quiz_answers svcW.answers (build_lookup_map svcW.answers) itemsRB)
    rfl (by decide)).1 (by decide)

/-- C8: a submission in which no raw answer normalizes to a catalog id
yields the empty result list, with no error and independently of the
external Tier-3 collaborator (no tier is consulted). -/
theorem claim_C8_empty_submission (svc : AlignmentService) (items : List QuizItem)
    (max_results : Nat)
    (h : normalize_quiz_answers svc.answers (build_lookup_map svc.answers) items = []) :
    matchQuiz svc items max_results = .ok [] := by
  unfold matchQuiz
  dsimp only []
  rw [if_pos h]

unseal Rat.add Rat.mul Rat.inv Rat.sub in
/-- Witness for C8: the `qqqq` submission normalizes to nothing and the
engine returns the empty list even though its vector oracle would raise. -/
theorem claim_C8_empty_submission_witness :
    matchQuiz ⟨answersW, svcW.alignments, true, fun _ _ => .error "down"⟩ itemsNoMatch 12 =
      .ok [] :=
  claim_C8_empty_submission ⟨answersW, svcW.alignments, true, fun _ _ => .error "down"⟩
    itemsNoMatch 12 (by decide)

/-- C4: the Tier-2 confidence is `max(0.5, 1 - d/6)` of the reported
distance before rounding: a distance of 0 gives 1.0, any distance at or
above the 3.0 gating threshold gives exactly 0.5, and the value never
drops below the 0.5 floor. -/
theorem claim_C4_confidence (d : ℚ) :
    tier2_confidence d = max (1 / 2) (1 - d / 6) ∧
    (d = 0 → tier2_confidence d = 1) ∧
    (3 ≤ d → tier2_confidence d = 1 / 2) ∧
    (1 / 2 : ℚ) ≤ tier2_confidence d := by
  refine ⟨rfl, ?_, ?_, le_max_left _ _⟩
  · rintro rfl
    norm_num [tier2_confidence]
  · intro h3
    have hle : (1 - d / 6 : ℚ) ≤ 1 / 2 := by linarith
    rw [tier2_confidence, max_eq_left hle]

/-- Witness for C4: confidence 1.0 at distance 0, and exactly the 0.5
floor at distance 6 (a distance beyond the threshold). -/
theorem claim_C4_confidence_witness :
    tier2_confidence 0 = 1 ∧ tier2_confidence 6 = 1 / 2 :=
  ⟨(claim_C4_confidence 0).2.1 rfl, (claim_C4_confidence 6).2.2.1 (by norm_num)⟩

/-- C5: for components `[A, B]`, the greedy Tier-1 order check accepts the
user sequences `[A, B]` and `[A, X, B]`, rejects `[B, A]` and `[A]`, and in
general succeeds exactly when the components embed as a not-necessarily
contiguous subsequence of the user sequence. -/
theorem claim_C5_order_matching (A B X : String) (hAB : A ≠ B) :
    is_subsequence [A, B] [A, B] = true ∧
    is_subsequence [A, B] [A, X, B] = true ∧
    is_subsequence [A, B] [B, A] = false ∧
    is_subsequence [A, B] [A] = false ∧
    (∀ comps userSeq : List String,
      is_subsequence comps userSeq = true ↔ List.Sublist comps userSeq) := by
  refine ⟨?_, ?_, ?_, ?_, is_subsequence_iff_sublist⟩
  · simp [is_subsequence]
  · exact (is_subsequence_iff_sublist _ _).mpr (((List.Sublist.refl [B]).cons X).cons₂ A)
  · have hBA : B ≠ A := Ne.symm hAB
    simp [is_subsequence, hBA]
  · simp [is_subsequence]

/-- Witness for C5 at concrete distinct answer ids. -/
theorem claim_C5_order_matching_witness :
    is_subsequence ["a", "b"] ["a", "x", "b"] = true ∧
    is_subsequence ["a", "b"] ["b", "a"] = false :=
  ⟨(claim_C5_order_matching "a" "b" "x" (by decide)).2.1,
   (claim_C5_order_matching "a" "b" "x" (by decide)).2.2.1⟩

/-- C6: every alignment returned by Tier 1 has its component-id set
contained in the user's answer-id set. -/
theorem claim_C6_subset_invariant (user_answer_ids : List String)
    (normalized_answers : List NormalizedAnswer)
    (alignments : List (String × AlignmentData)) (r : MatchResult)
    (h : r ∈ tier1_exact_match user_answer_ids normalized_answers alignments) :
    ∀ c ∈ r.alignment.components, c ∈ user_answer_ids :=
  (tier1_mem_elim user_answer_ids normalized_answers alignments r h).2

unseal Rat.add Rat.mul Rat.inv Rat.sub in
/-- Witness for C6: the polarity alignment matched on the Red-then-Blue
submission has each of its two components among the user's ids. -/
theorem claim_C6_subset_invariant_witness :
    "COLOR_RED" ∈ ["COLOR_RED", "COLOR_BLUE"] ∧
    "COLOR_BLUE" ∈ ["COLOR_RED", "COLOR_BLUE"] :=
  ⟨claim_C6_subset_invariant ["COLOR_RED", "COLOR_BLUE"] naRedFirst
    [("POLARITY_RED_BLUE", alignPolarity)] ⟨alignPolarity, 0, "exact_ordered"⟩ (by decide)
    "COLOR_RED" (by decide),
   claim_C6_subset_invariant ["COLOR_RED", "COLOR_BLUE"] naRedFirst
    [("POLARITY_RED_BLUE", alignPolarity)] ⟨alignPolarity, 0, "exact_ordered"⟩ (by decide)
    "COLOR_BLUE" (by decide)⟩

unseal Rat.add Rat.mul Rat.inv Rat.sub in
/-- Counterexample to C2: `POLARITY_RED_BLUE`, an alignment of type
POLARITY built by the CSV loader, has its component set contained in the
user's answer-id set, yet Tier 1 does not match it when the user picked
Blue before Red — because the loader marks every alignment, whatever its
type, as order-sensitive. -/
theorem claim_C2_counterexample :
    alignPolarity.type = "POLARITY" ∧
    alignPolarity.component_order_matters = true ∧
    (∀ c ∈ alignPolarity.components, c ∈ ["COLOR_BLUE", "COLOR_RED"]) ∧
    tier1_exact_match ["COLOR_BLUE", "COLOR_RED"] naBlueFirst
      [("POLARITY_RED_BLUE", alignPolarity)] = [] := by
  refine ⟨by decide, by decide, by decide, by decide⟩

/-- C2 as amended: Tier 1 matches an alignment whose
`component_order_matters` flag is off by the subset test alone, in any
selection order; but the loader hard-codes that flag to `true` for every
alignment regardless of its type, so all loaded alignments — POLARITY,
RESONANCE and SOLO included — also undergo the subsequence check. -/
theorem claim_C2_amended :
    (∀ (user_answer_ids : List String) (normalized_answers : List NormalizedAnswer)
      (alignments : List (String × AlignmentData)) (p : String × AlignmentData),
      p ∈ alignments → p.2.component_order_matters = false →
      (∀ c ∈ p.2.components, c ∈ user_answer_ids) →
      ∃ r ∈ tier1_exact_match user_answer_ids normalized_answers alignments,
        r.alignment = p.2) ∧
    (∀ (answers : List (String × AnswerData)) (alignment_id ty name desc comps : String),
      (mk_alignment answers alignment_id ty name desc comps).component_order_matters = true) := by
  constructor
  · intro ids na aligns p hp hord hsub
    exact ⟨⟨p.2, 0, "exact_unordered"⟩,
      tier1_mem_intro_unordered ids na aligns p hp hord hsub, rfl⟩
  · intro answers alignment_id ty name desc comps
    rfl

unseal Rat.add Rat.mul Rat.inv Rat.sub in
/-- Witness for the amended C2: a flag-off alignment is matched from a
Blue-before-Red submission by the subset test alone, and the loader-built
polarity row carries the hard-coded `true` flag. -/
theorem claim_C2_amended_witness :
    (∃ r ∈ tier1_exact_match ["COLOR_BLUE", "COLOR_RED"] naBlueFirst
      [("U1", alignUnordered)], r.alignment = alignUnordered) ∧
    (mk_alignment answersW "POLARITY_RED_BLUE" "polarity" "Red and Blue" "When Red meets Blue"
      "COLOR_RED+COLOR_BLUE").component_order_matters = true :=
  ⟨claim_C2_amended.1 ["COLOR_BLUE", "COLOR_RED"] naBlueFirst [("U1", alignUnordered)]
      ("U1", alignUnordered) (by decide) (by decide) (by decide),
   claim_C2_amended.2 answersW "POLARITY_RED_BLUE" "polarity" "Red and Blue"
      "When Red meets Blue" "COLOR_RED+COLOR_BLUE"⟩

unseal Rat.add Rat.mul Rat.inv Rat.sub in
/-- C3 exhibits a code bug: when the external Tier-3 neighbor query raises
(here `boom`), `match` does not degrade to the category-fallback path — it
propagates the error to its caller, even though the same catalog state
would have produced a non-empty category fallback had the query merely
returned no neighbors. -/
theorem claim_C3_error_propagates :
    matchQuiz svcErr itemsX 12 = .error "boom" ∧
    tier3_vector_fallback svcOkEmpty
      (normalize_quiz_answers svcErr.answers (build_lookup_map svcErr.answers) itemsX)
      ["catX"] 12 = .ok [⟨alignFar, 999 * 999, "category_fallback"⟩] := by
  refine ⟨by decide, by decide⟩

/-- C7: for a positive requested count, Tier 3 returns at most `n_results`
results; it returns at least one whenever some catalog row shares a
category with the user; and a zero-result outcome can only happen when the
neighbor query produced no catalog-known id and no row shares a
category. -/
theorem claim_C7_fallback_completeness (svc : AlignmentService)
    (normalized_answers : List NormalizedAnswer) (user_categories : List String)
    (n_results : Nat) (rs : List MatchResult) (hn : 1 ≤ n_results)
    (h : tier3_vector_fallback svc normalized_answers user_categories n_results = .ok rs) :
    rs.length ≤ n_results ∧
    ((∃ p ∈ svc.alignments,
        p.2.categories.any (fun c => user_categories.contains c) = true) → rs ≠ []) ∧
    (rs = [] →
      (∀ ids, query_vector svc
          (String.intercalate " " (normalized_answers.map (fun a => a.text)))
          (n_results * 2) = .ok ids →
        ∀ aid ∈ ids, lookupAssoc svc.alignments aid = none) ∧
      (∀ p ∈ svc.alignments,
        p.2.categories.any (fun c => user_categories.contains c) = false)) := by
  refine ⟨tier3_length_le svc normalized_answers user_categories n_results rs h,
    fun hs => tier3_ne_nil svc normalized_answers user_categories n_results rs hn hs h,
    fun hnil => ?_⟩
  rw [hnil] at h
  exact tier3_nil_elim svc normalized_answers user_categories n_results hn h

unseal Rat.add Rat.mul Rat.inv Rat.sub in
/-- Witness for C7: a run of Tier 3 whose neighbor query returns nothing,
over a catalog with one category-sharing row, returns exactly one result
(so at most 12 and more than zero). -/
theorem claim_C7_fallback_completeness_witness :
    ([(⟨alignFar, 999 * 999, "category_fallback"⟩ : MatchResult)].length ≤ 12) ∧
    ((∃ p ∈ svcOkEmpty.alignments,
        p.2.categories.any (fun c => (["catX"] : List String).contains c) = true) →
      ([(⟨alignFar, 999 * 999, "category_fallback"⟩ : MatchResult)] : List MatchResult) ≠ []) := by
  have h := claim_C7_fallback_completeness svcOkEmpty
    (normalize_quiz_answers svcErr.answers (build_lookup_map svcErr.answers) itemsX)
    ["catX"] 12 [⟨alignFar, 999 * 999, "category_fallback"⟩] (by decide) (by decide)
  exact ⟨h.1, h.2.1⟩

/-- Every formatted record copies id, type, title and description from one
of the raw results, and carries the given tier tag. -/
theorem format_results_mem_elim (l : List MatchResult) (tier : String)
    (r : FormattedResult) (h : r ∈ format_results l tier) :
    ∃ m ∈ l, r.id = m.alignment.id ∧ r.type = m.alignment.type ∧
      r.title = m.alignment.title ∧ r.description = m.alignment.description ∧
      r.match_tier = tier := by
  rcases List.mem_map.mp h with ⟨m, hm, rfl⟩
  exact ⟨m, hm, rfl, rfl, rfl, rfl, rfl⟩

/-- Successful Tier-3 dispatch decomposes into a successful vector
fallback whose truncated results are formatted with the `vector` tag. -/
theorem tier3_path_ok_elim (svc : AlignmentService)
    (normalized : List NormalizedAnswer) (user_categories : List String)
    (max_results : Nat) (rs : List FormattedResult)
    (h : tier3_path svc normalized user_categories max_results = .ok rs) :
    ∃ rs3, tier3_vector_fallback svc normalized user_categories max_results = .ok rs3 ∧
      rs = format_results (rs3.take max_results) "vector" := by
  unfold tier3_path at h
  rcases ht : tier3_vector_fallback svc normalized user_categories max_results with e | rs3
  · rw [ht] at h
    cases h
  · rw [ht] at h
    simp only [Except.map, Except.ok.injEq] at h
    exact ⟨rs3, rfl, h.symm⟩

/-- C10: every record `match` returns corresponds to a row of the loaded
alignment catalog, with id, type, title and description copied from that
row; in particular a Tier-3 neighbor id unknown to the catalog never
reaches the output. -/
theorem claim_C10_catalog_provenance (svc : AlignmentService) (items : List QuizItem)
    (max_results : Nat) (rs : List FormattedResult) (r : FormattedResult)
    (h : matchQuiz svc items max_results = .ok rs) (hr : r ∈ rs) :
    ∃ p ∈ svc.alignments, r.id = p.2.id ∧ r.type = p.2.type ∧
      r.title = p.2.title ∧ r.description = p.2.description := by
  unfold matchQuiz at h
  dsimp only [] at h
  by_cases hnorm : normalize_quiz_answers svc.answers (build_lookup_map svc.answers) items = []
  · rw [if_pos hnorm] at h
    simp only [Except.ok.injEq] at h
    rw [← h] at hr
    exact absurd hr (List.not_mem_nil r)
  · rw [if_neg hnorm] at h
    unfold after_normalize at h
    dsimp only [] at h
    rcases ht1 : tier1_exact_match
        ((normalize_quiz_answers svc.answers (build_lookup_map svc.answers) items).map
          (fun a => a.answer_id))
        (normalize_quiz_answers svc.answers (build_lookup_map svc.answers) items)
        svc.alignments with _ | ⟨r1, rs1⟩
    · rw [ht1] at h
      dsimp only [] at h
      unfold after_tier1 at h
      rcases ht2 : tier2_axis_match
          (calculate_user_profile
            (normalize_quiz_answers svc.answers (build_lookup_map svc.answers) items))
          ((normalize_quiz_answers svc.answers (build_lookup_map svc.answers) items).map
            (fun a => a.category))
          svc.alignments with _ | ⟨b, rest⟩
      · rw [ht2] at h
        dsimp only [] at h
        rcases tier3_path_ok_elim _ _ _ _ _ h with ⟨rs3, ht3, hrs⟩
        rw [hrs] at hr
        rcases format_results_mem_elim _ _ _ hr with ⟨m, hm, hid, hty, hti, hde, _⟩
        rcases tier3_mem_elim _ _ _ _ _ _ ht3 (List.take_subset _ _ hm) with ⟨p, hp, hma⟩
        exact ⟨p, hp, hma ▸ hid, hma ▸ hty, hma ▸ hti, hma ▸ hde⟩
      · rw [ht2] at h
        dsimp only [] at h
        by_cases hg : b.distSq < 9
        · rw [if_pos hg] at h
          simp only [Except.ok.injEq] at h
          rw [← h] at hr
          rcases format_results_mem_elim _ _ _ hr with ⟨m, hm, hid, hty, hti, hde, _⟩
          have hm2 : m ∈ b :: rest := List.take_subset _ _ hm
          rw [← ht2] at hm2
          rcases tier2_mem_elim _ _ _ _ hm2 with ⟨p, hp, hma, _⟩
          exact ⟨p, hp, hma ▸ hid, hma ▸ hty, hma ▸ hti, hma ▸ hde⟩
        · rw [if_neg hg] at h
          rcases tier3_path_ok_elim _ _ _ _ _ h with ⟨rs3, ht3, hrs⟩
          rw [hrs] at hr
          rcases format_results_mem_elim _ _ _ hr with ⟨m, hm, hid, hty, hti, hde, _⟩
          rcases tier3_mem_elim _ _ _ _ _ _ ht3 (List.take_subset _ _ hm) with ⟨p, hp, hma⟩
          exact ⟨p, hp, hma ▸ hid, hma ▸ hty, hma ▸ hti, hma ▸ hde⟩
    · rw [ht1] at h
      dsimp only [] at h
      simp only [Except.ok.injEq] at h
      rw [← h] at hr
      rcases format_results_mem_elim _ _ _ hr with ⟨m, hm, hid, hty, hti, hde, _⟩
      have hm2 : m ∈ r1 :: rs1 := List.take_subset _ _ hm
      rw [← ht1] at hm2
      rcases tier1_mem_elim _ _ _ _ hm2 with ⟨⟨p, hp, hma⟩, _⟩
      exact ⟨p, hp, hma ▸ hid, hma ▸ hty, hma ▸ hti, hma ▸ hde⟩

unseal Rat.add Rat.mul Rat.inv Rat.sub in
/-- Witness for C10: the single record returned on the Red-then-Blue run
copies its fields from the `POLARITY_RED_BLUE` catalog row. -/
theorem claim_C10_catalog_provenance_witness :
    ∃ p ∈ svcW.alignments,
      (⟨"POLARITY_RED_BLUE", "POLARITY", "Red and Blue", "When Red meets Blue",
        "exact"⟩ : FormattedResult).id = p.2.id ∧
      (⟨"POLARITY_RED_BLUE", "POLARITY", "Red and Blue", "When Red meets Blue",
        "exact"⟩ : FormattedResult).type = p.2.type ∧
      (⟨"POLARITY_RED_BLUE", "POLARITY", "Red and Blue", "When Red meets Blue",
        "exact"⟩ : FormattedResult).title = p.2.title ∧
      (⟨"POLARITY_RED_BLUE", "POLARITY", "Red and Blue", "When Red meets Blue",
        "exact"⟩ : FormattedResult).description = p.2.description :=
  claim_C10_catalog_provenance svcW itemsRB 12
    [⟨"POLARITY_RED_BLUE", "POLARITY", "Red and Blue", "When Red meets Blue", "exact"⟩]
    ⟨"POLARITY_RED_BLUE", "POLARITY", "Red and Blue", "When Red meets Blue", "exact"⟩
    (by decide) (by decide)

/-! Lemmas about the normalizer lookup dictionary. -/

/-- Overwriting an existing key leaves its value reachable at that key. -/
theorem lookup_map_overwrite (k v : String) (m : List (String × String))
    (hany : m.any (fun p => p.1 = k) = true) :
    lookupAssoc (m.map (fun p => if p.1 = k then (k, v) else p)) k = some v := by
  induction m with
  | nil => simp at hany
  | cons p rest ih =>
    simp only [List.any_cons, Bool.or_eq_true, decide_eq_true_eq] at hany
    simp only [List.map]
    by_cases hpk : p.1 = k
    · rw [if_pos hpk]
      unfold lookupAssoc
      rw [List.find?_cons_of_pos _ (by simp)]
      rfl
    · rw [if_neg hpk]
      have hrest : rest.any (fun p => p.1 = k) = true := by
        rcases hany with h | h
        · exact absurd h hpk
        · exact h
      unfold lookupAssoc
      rw [List.find?_cons_of_neg _ (by simp [hpk])]
      exact ih hrest

/-- The value appended for a fresh key is reachable at that key. -/
theorem lookup_append_new (k v : String) (m : List (String × String))
    (hany : m.any (fun p => p.1 = k) = false) :
    lookupAssoc (m ++ [(k, v)]) k = some v := by
  induction m with
  | nil =>
    unfold lookupAssoc
    rw [List.nil_append, List.find?_cons_of_pos _ (by simp)]
    rfl
  | cons p rest ih =>
    simp only [List.any_cons, Bool.or_eq_false_iff, decide_eq_false_iff_not] at hany
    unfold lookupAssoc
    rw [List.cons_append, List.find?_cons_of_neg _ (by simp [hany.1])]
    exact ih (by simp [hany.2])

/-- Inserting at one key leaves lookups at any other key unchanged
(map branch). -/
theorem lookup_map_ne (k v k' : String) (hne : k' ≠ k) (m : List (String × String)) :
    lookupAssoc (m.map (fun p => if p.1 = k then (k, v) else p)) k' = lookupAssoc m k' := by
  induction m with
  | nil => rfl
  | cons p rest ih =>
    simp only [List.map]
    by_cases hpk : p.1 = k
    · rw [if_pos hpk]
      unfold lookupAssoc
      rw [List.find?_cons_of_neg _ (by simp [Ne.symm hne]),
        List.find?_cons_of_neg _ (by simp [hpk ▸ Ne.symm hne])]
      exact ih
    · rw [if_neg hpk]
      unfold lookupAssoc
      by_cases hpk' : p.1 = k'
      · rw [List.find?_cons_of_pos _ (by simp [hpk']),
          List.find?_cons_of_pos _ (by simp [hpk'])]
      · rw [List.find?_cons_of_neg _ (by simp [hpk']),
          List.find?_cons_of_neg _ (by simp [hpk'])]
        exact ih

/-- Appending at one key leaves lookups at any other key unchanged. -/
theorem lookup_append_ne (k v k' : String) (hne : k' ≠ k) (m : List (String × String)) :
    lookupAssoc (m ++ [(k, v)]) k' = lookupAssoc m k' := by
  induction m with
  | nil =>
    unfold lookupAssoc
    rw [List.nil_append, List.find?_cons_of_neg _ (by simp [Ne.symm hne])]
  | cons p rest ih =>
    unfold lookupAssoc
    by_cases hpk' : p.1 = k'
    · rw [List.cons_append, List.find?_cons_of_pos _ (by simp [hpk']),
        List.find?_cons_of_pos _ (by simp [hpk'])]
    · rw [List.cons_append, List.find?_cons_of_neg _ (by simp [hpk']),
        List.find?_cons_of_neg _ (by simp [hpk'])]
      exact ih

/-- Dict write: the written value is reachable at the written key. -/
theorem lookupAssoc_insertAssoc_self (m : List (String × String)) (k v : String) :
    lookupAssoc (insertAssoc m k v) k = some v := by
  unfold insertAssoc
  by_cases hany : m.any (fun p => p.1 = k) = true
  · rw [if_pos hany]
    exact lookup_map_overwrite k v m hany
  · rw [if_neg hany]
    exact lookup_append_new k v m (Bool.eq_false_iff.mpr hany)

/-- Dict write: lookups at other keys are unchanged. -/
theorem lookupAssoc_insertAssoc_ne (m : List (String × String)) (k v k' : String)
    (hne : k' ≠ k) : lookupAssoc (insertAssoc m k v) k' = lookupAssoc m k' := by
  unfold insertAssoc
  by_cases hany : m.any (fun p => p.1 = k) = true
  · rw [if_pos hany]
    exact lookup_map_ne k v k' hne m
  · rw [if_neg hany]
    exact lookup_append_ne k v k' hne m

/-- Keys after a dict write: the written key or a pre-existing entry. -/
theorem mem_insertAssoc_keys (m : List (String × String)) (k v : String)
    (p : String × String) (h : p ∈ insertAssoc m k v) : p.1 = k ∨ p ∈ m := by
  unfold insertAssoc at h
  by_cases hany : m.any (fun q => q.1 = k) = true
  · rw [if_pos hany] at h
    rcases List.mem_map.mp h with ⟨q, hq, hfq⟩
    by_cases hqk : q.1 = k
    · rw [if_pos hqk] at hfq
      exact Or.inl (by rw [← hfq])
    · rw [if_neg hqk] at hfq
      exact Or.inr (hfq ▸ hq)
  · rw [if_neg hany] at h
    rcases List.mem_append.mp h with h | h
    · exact Or.inr h
    · simp only [List.mem_singleton] at h
      exact Or.inl (by rw [h])

/-- A successful dict lookup exhibits a matching entry. -/
theorem lookupAssoc_some_mem {α : Type} (m : List (String × α)) (k : String) (v : α)
    (h : lookupAssoc m k = some v) : ∃ p ∈ m, p.1 = k ∧ p.2 = v := by
  unfold lookupAssoc at h
  rcases hf : m.find? (fun p => p.1 = k) with _ | p
  · rw [hf] at h
    cases h
  · rw [hf] at h
    simp only [Option.map_some', Option.some.injEq] at h
    exact ⟨p, List.mem_of_find?_eq_some hf, by simpa using List.find?_some hf, h⟩

/-- Folding the catalog into the lookup dict: if every catalog entry that
writes the key `k` carries the id `aid`, and either the accumulator already
answers `k` with `aid` or some remaining entry writes `k`, then the final
dict answers `k` with `aid`. -/
theorem build_fold_lookup (k aid : String) :
    ∀ (db : List (String × AnswerData)) (m : List (String × String)),
      (∀ q ∈ db, (exactKey q.2.text = k → q.1 = aid) ∧
        (clean_text q.2.text = k → q.1 = aid)) →
      (lookupAssoc m k = some aid ∨
        ∃ q ∈ db, exactKey q.2.text = k ∨ clean_text q.2.text = k) →
      lookupAssoc
        (db.foldl (fun m p =>
          let m1 := insertAssoc m (exactKey p.2.text) p.1
          let ck := clean_text p.2.text
          if ck ≠ exactKey p.2.text then insertAssoc m1 ck p.1 else m1) m) k = some aid := by
  intro db
  induction db with
  | nil =>
    intro m _ hdisj
    rcases hdisj with h | ⟨q, hq, _⟩
    · exact h
    · exact absurd hq (List.not_mem_nil q)
  | cons q rest ih =>
    intro m hcol hdisj
    rw [List.foldl_cons]
    refine ih _ (fun q' hq' => hcol q' (List.mem_cons_of_mem q hq')) ?_
    by_cases hek : exactKey q.2.text = k
    · left
      have hqa : q.1 = aid := (hcol q (List.mem_cons_self q rest)).1 hek
      dsimp only []
      by_cases hif : clean_text q.2.text ≠ exactKey q.2.text
      · rw [if_pos hif]
        have hckk : k ≠ clean_text q.2.text := fun hc => hif (by rw [← hc, hek])
        rw [lookupAssoc_insertAssoc_ne _ _ _ _ hckk, hek,
          lookupAssoc_insertAssoc_self, hqa]
      · rw [if_neg hif]
        rw [hek, lookupAssoc_insertAssoc_self, hqa]
    · by_cases hck : clean_text q.2.text = k
      · left
        have hqa : q.1 = aid := (hcol q (List.mem_cons_self q rest)).2 hck
        dsimp only []
        have hif : clean_text q.2.text ≠ exactKey q.2.text := fun hc => hek (by rw [← hc, hck])
        rw [if_pos hif, hck, lookupAssoc_insertAssoc_self, hqa]
      · rcases hdisj with h | ⟨q', hq', hw⟩
        · left
          dsimp only []
          have hkek : k ≠ exactKey q.2.text := fun hc => hek hc.symm
          by_cases hif : clean_text q.2.text ≠ exactKey q.2.text
          · rw [if_pos hif]
            have hkck : k ≠ clean_text q.2.text := fun hc => hck hc.symm
            rw [lookupAssoc_insertAssoc_ne _ _ _ _ hkck,
              lookupAssoc_insertAssoc_ne _ _ _ _ hkek]
            exact h
          · rw [if_neg hif]
            rw [lookupAssoc_insertAssoc_ne _ _ _ _ hkek]
            exact h
        · right
          rcases List.mem_cons.mp hq' with rfl | hq'
          · rcases hw with hw | hw
            · exact absurd hw hek
            · exact absurd hw hck
          · exact ⟨q', hq', hw⟩

/-- Every key of the built lookup dict is the exact or cleaned key of some
catalog entry (or was already in the starting accumulator). -/
theorem build_fold_keys :
    ∀ (db : List (String × AnswerData)) (m : List (String × String)) (p : String × String),
      p ∈ db.foldl (fun m p =>
        let m1 := insertAssoc m (exactKey p.2.text) p.1
        let ck := clean_text p.2.text
        if ck ≠ exactKey p.2.text then insertAssoc m1 ck p.1 else m1) m →
      p ∈ m ∨ ∃ q ∈ db, p.1 = exactKey q.2.text ∨ p.1 = clean_text q.2.text := by
  intro db
  induction db with
  | nil =>
    intro m p hp
    exact Or.inl hp
  | cons q rest ih =>
    intro m p hp
    rw [List.foldl_cons] at hp
    rcases ih _ p hp with hstep | ⟨q', hq', hw⟩
    · dsimp only [] at hstep
      by_cases hif : clean_text q.2.text ≠ exactKey q.2.text
      · rw [if_pos hif] at hstep
        rcases mem_insertAssoc_keys _ _ _ _ hstep with hk | hstep
        · exact Or.inr ⟨q, List.mem_cons_self q rest, Or.inr hk⟩
        · rcases mem_insertAssoc_keys _ _ _ _ hstep with hk | hstep
          · exact Or.inr ⟨q, List.mem_cons_self q rest, Or.inl hk⟩
          · exact Or.inl hstep
      · rw [if_neg hif] at hstep
        rcases mem_insertAssoc_keys _ _ _ _ hstep with hk | hstep
        · exact Or.inr ⟨q, List.mem_cons_self q rest, Or.inl hk⟩
        · exact Or.inl hstep
    · exact Or.inr ⟨q', List.mem_cons_of_mem q hq', hw⟩

unseal Rat.add Rat.mul Rat.inv Rat.sub in
/-- Counterexample to C9: in a catalog holding `red` (id A1) and `red!`
(id B1), the cleaned key of `red!` overwrites the exact key of `red`, so
normalizing the exact catalog text `red` of answer A1 returns B1, not A1. -/
theorem claim_C9_counterexample :
    ("A1", ansRedPlain) ∈ collideDb ∧ ansRedPlain.text = "red" ∧
    normalize_answer (build_lookup_map collideDb) "red" = some "B1" ∧
    ("B1" : String) ≠ "A1" := by
  refine ⟨by decide, by decide, by decide, by decide⟩

/-- C9 as amended: normalizing the exact catalog text of an answer returns
that answer's id provided no other catalog entry's exact or cleaned key
collides with this answer's exact key (in the source, a later colliding
entry overwrites the dict slot); and normalizing a text of cleaned length
above 3 with no exact, cleaned, substring or superstring relation to any
catalog key returns no match. -/
theorem claim_C9_amended :
    (∀ (db : List (String × AnswerData)) (aid : String) (d : AnswerData),
      (aid, d) ∈ db →
      (∀ q ∈ db, (exactKey q.2.text = exactKey d.text → q.1 = aid) ∧
        (clean_text q.2.text = exactKey d.text → q.1 = aid)) →
      normalize_answer (build_lookup_map db) d.text = some aid) ∧
    (∀ (db : List (String × AnswerData)) (text : String),
      3 < (clean_text text).length →
      (∀ q ∈ db,
        exactKey text ≠ exactKey q.2.text ∧ exactKey text ≠ clean_text q.2.text ∧
        clean_text text ≠ exactKey q.2.text ∧ clean_text text ≠ clean_text q.2.text ∧
        isSubstr (clean_text text) (exactKey q.2.text) = false ∧
        isSubstr (exactKey q.2.text) (clean_text text) = false ∧
        isSubstr (clean_text text) (clean_text q.2.text) = false ∧
        isSubstr (clean_text q.2.text) (clean_text text) = false) →
      normalize_answer (build_lookup_map db) text = none) := by
  constructor
  · intro db aid d hmem hcol
    have hlook : lookupAssoc (build_lookup_map db) (exactKey d.text) = some aid := by
      unfold build_lookup_map
      exact build_fold_lookup (exactKey d.text) aid db [] hcol
        (Or.inr ⟨(aid, d), hmem, Or.inl rfl⟩)
    unfold normalize_answer
    rw [hlook]
  · intro db text hlen hsep
    have hkeys : ∀ p ∈ build_lookup_map db,
        ∃ q ∈ db, p.1 = exactKey q.2.text ∨ p.1 = clean_text q.2.text := by
      intro p hp
      unfold build_lookup_map at hp
      rcases build_fold_keys db [] p hp with h | h
      · exact absurd h (List.not_mem_nil p)
      · exact h
    have h1 : lookupAssoc (build_lookup_map db) (exactKey text) = none := by
      rcases hl : lookupAssoc (build_lookup_map db) (exactKey text) with _ | v
      · rfl
      · rcases lookupAssoc_some_mem _ _ _ hl with ⟨p, hp, hpk, _⟩
        rcases hkeys p hp with ⟨q, hq, hw | hw⟩
        · exact absurd (by rw [← hpk, hw]) (hsep q hq).1
        · exact absurd (by rw [← hpk, hw]) (hsep q hq).2.1
    have h2 : lookupAssoc (build_lookup_map db) (clean_text text) = none := by
      rcases hl : lookupAssoc (build_lookup_map db) (clean_text text) with _ | v
      · rfl
      · rcases lookupAssoc_some_mem _ _ _ hl with ⟨p, hp, hpk, _⟩
        rcases hkeys p hp with ⟨q, hq, hw | hw⟩
        · exact absurd (by rw [← hpk, hw]) (hsep q hq).2.2.1
        · exact absurd (by rw [← hpk, hw]) (hsep q hq).2.2.2.1
    have h3 : (build_lookup_map db).find? (fun p =>
        (isSubstr (clean_text text) p.1 || isSubstr p.1 (clean_text text)) &&
          decide (3 < (clean_text text).length)) = none := by
      rw [List.find?_eq_none]
      intro p hp hcontra
      rcases hkeys p hp with ⟨q, hq, hw | hw⟩
      · obtain ⟨-, -, -, -, s1, s2, -, -⟩ := hsep q hq
        rw [hw, s1, s2] at hcontra
        simp at hcontra
      · obtain ⟨-, -, -, -, -, -, s3, s4⟩ := hsep q hq
        rw [hw, s3, s4] at hcontra
        simp at hcontra
    unfold normalize_answer
    rw [h1]
    dsimp only []
    rw [h2]
    dsimp only []
    rw [h3]
    rfl

unseal Rat.add Rat.mul Rat.inv Rat.sub in
/-- Witness for the amended C9: in a collision-free one-answer catalog the
exact text `red` round-trips to `A1`, and the unrelated text `zzzz`
normalizes to nothing. -/
theorem claim_C9_amended_witness :
    normalize_answer (build_lookup_map [("A1", ansRedPlain)]) ansRedPlain.text = some "A1" ∧
    normalize_answer (build_lookup_map [("A1", ansRedPlain)]) "zzzz" = none :=
  ⟨claim_C9_amended.1 [("A1", ansRedPlain)] "A1" ansRedPlain (by decide) (by decide),
   claim_C9_amended.2 [("A1", ansRedPlain)] "zzzz" (by decide) (by decide)⟩
